import Mathlib

/-!
Shallow embedding of the reading-queue core of `books.py`.

Calendar dates are modelled as integers (day numbers): the code only ever
compares dates and adds whole-day offsets (`datetime.timedelta(days=n)`),
which correspond to integer comparison and addition.  Operations that take
`datetime.date or str` arguments are modelled on the date branch (passing a
`date` makes `strptime` raise `TypeError`, which the code swallows, keeping
the value as is), so dates here are already-parsed values.

Python exceptions are modelled with an error type; every mutating method on
the `BooksQueue` class returns the raised error (or unit on success)
together with the post-call state, so that partial mutation before an
exception is observable, exactly as it is on the live Python object.
-/

/-- Errors raised by the code: `ValueError(msg)`, `IndexError` (out-of-range
list subscript) and `AttributeError` (missing attribute in `getattr`). -/
inductive Err where
  | valueError (msg : String)
  | indexError (msg : String)
  | attributeError (msg : String)
deriving DecidableEq, Repr

/-- The `Book` class (books.py lines 38-166): immutable `id`, `title`,
`author`, `pages` plus optional `start_date` / `end_date` set through
setters that accept a date value unchanged. -/
structure Book where
  id : Int
  title : String
  author : String
  pages : Int
  start_date : Option Int
  end_date : Option Int
deriving DecidableEq, Repr

/-- The mutable state of a `BooksQueue` object (books.py lines 169-607):
the two book lists under the `queue` and `processed` keys of `self.books`,
and the reading log `self.__log`, a Python dict from date to page count,
modelled as an insertion-ordered association list. -/
structure BooksQueue where
  queue : List Book
  processed : List Book
  log : List (Int × Int)
deriving DecidableEq, Repr

/-- Key order used by `_set_log` when it rebuilds the dict with
`dict(sorted(self.log.items(), key=lambda i: i[0]))`. -/
def dateLe (x y : Int × Int) : Prop := x.1 ≤ y.1

instance : DecidableRel dateLe := fun x y => inferInstanceAs (Decidable (x.1 ≤ y.1))

instance : IsTotal (Int × Int) dateLe := ⟨fun x y => Int.le_total x.1 y.1⟩

instance : IsTrans (Int × Int) dateLe := ⟨fun _ _ _ h h' => le_trans h h'⟩

namespace BooksQueue

/-- `avg` property (books.py lines 218-226): `sum(self.log.values()) //
len(self.log)`, with the `ZeroDivisionError` on an empty log caught and
turned into `0`.  Python `//` is floor division, i.e. `Int.fdiv`. -/
def avg (q : BooksQueue) : Int :=
  if q.log.length = 0 then 0
  else Int.fdiv ((q.log.map Prod.snd).sum) (q.log.length : Int)

/-- `total` property (books.py lines 228-233): `sum(self.log.values())`. -/
def total (q : BooksQueue) : Int :=
  (q.log.map Prod.snd).sum

/-- `_set_log` (books.py lines 257-286).  Checks `pages < 0`, then `date in
self.__log`; on success stores the entry (the date is new, so the dict
assignment appends it) and rebuilds the dict sorted by date.  Both failure
paths raise before anything is written, so the state is returned unchanged
there. -/
def set_log (q : BooksQueue) (date : Int) (pages : Int) :
    Except Err Unit × BooksQueue :=
  if pages < 0 then
    (.error (.valueError ("Pages count must be >= 0")), q)
  else if date ∈ q.log.map Prod.fst then
    (.error (.valueError
      ("The date " ++ toString date ++ " even exists in the log")), q)
  else
    (.ok (), { q with
      log := List.insertionSort dateLe (q.log ++ [(date, pages)]) })

/-- `complete_book` (books.py lines 489-509).  Raises `ValueError` on an
empty queue; otherwise pops the head, sets its `end_date` to
`completed_date or self.today`, appends it to `processed`, and then
unconditionally assigns `self.queue[0].start_date` — which raises
`IndexError` when the pop emptied the queue, after the pop and the append
have already mutated the state. -/
def complete_book (q : BooksQueue) (today : Int)
    (completed_date : Option Int) : Except Err Unit × BooksQueue :=
  match q.queue with
  | [] => (.error (.valueError ("Books queue is empty")), q)
  | book :: rest =>
    let cd := completed_date.getD today
    let done := { book with end_date := some cd }
    match rest with
    | [] =>
      (.error (.indexError ("list index out of range")),
        { q with queue := [], processed := q.processed ++ [done] })
    | head :: tail =>
      (.ok (), { q with
        queue := { head with start_date := some (cd + 1) } :: tail,
        processed := q.processed ++ [done] })

/-- `_last_id` (books.py lines 511-515): `self.queue[-1].id`, raising
`IndexError` on an empty queue. -/
def last_id (q : BooksQueue) : Except Err Int :=
  match q.queue.getLast? with
  | none => .error (.indexError ("list index out of range"))
  | some book => .ok book.id

/-- `add_book` (books.py lines 517-536): builds a `Book` with id
`self._last_id() + 1` (dates `None`) and appends it to the queue.  The
`IndexError` from `_last_id` on an empty queue escapes before any write. -/
def add_book (q : BooksQueue) (title : String) (authors : String)
    (pages : Int) : Except Err Unit × BooksQueue :=
  match q.last_id with
  | .error e => (.error e, q)
  | .ok lastId =>
    (.ok (), { q with
      queue := q.queue ++ [⟨lastId + 1, title, authors, pages, none, none⟩] })

end BooksQueue

/-- One step of the loop in `_str_queue` (books.py lines 384-396) computes
`days_count = book.pages // self.avg + 1` and the printed inclusive range
`[last_date, last_date + days_count]`, then moves the cursor to
`finish_date + 1`.  `schedule pace cursor books` returns, in queue order,
one `(book, start, finish, days_count)` tuple per book, with `pace` playing
`self.avg` and `cursor` the initial `last_date = self.start_date`. -/
def schedule (pace : Int) (cursor : Int) : List Book → List (Book × Int × Int × Int)
  | [] => []
  | book :: rest =>
    let days := Int.fdiv book.pages pace + 1
    let finish := cursor + days
    (book, cursor, finish, days) :: schedule pace (finish + 1) rest

namespace BooksQueue

end BooksQueue

/-! ### Concrete sample states used by the witnesses and counterexamples.
Dates are absolute day numbers; only differences between them matter. -/

/-- A fresh system: empty queue, empty processed list, empty log. -/
def emptyState : BooksQueue := ⟨[], [], []⟩

/-- A queue holding exactly one unfinished book (started on day 3), with a
nonempty processed list and log around it. -/
def soloState : BooksQueue :=
  ⟨[⟨2, ("solo"), ("auth"), 50, some 3, none⟩],
   [⟨1, ("done"), ("auth"), 10, some 1, some 2⟩],
   [(3, 10)]⟩

/-- The scenario book of the scheduler claim: 150 pages, started on day 3
(standing for 03.01.2024, so day 4 is 04.01.2024 and day 6 is
06.01.2024). -/
def sampleBook150 : Book := ⟨1, ("x"), ("y"), 150, some 3, none⟩

/-- Two-book queue whose head started on day 5, used to complete with the
earlier day 3. -/
def earlyDateQueue : BooksQueue :=
  ⟨[⟨1, ("h"), ("a"), 100, some 5, none⟩, ⟨2, ("i"), ("a"), 80, none, none⟩],
   [], []⟩

/-- A state whose processed list holds a larger id (7) than the queue tail
(1), separating the two id-assignment policies. -/
def idState : BooksQueue :=
  ⟨[⟨1, ("q1"), ("a"), 5, none, none⟩],
   [⟨7, ("p7"), ("a"), 6, some 1, some 2⟩],
   []⟩

/-- Log with entries on days 1 and 2 (01.01.2024 and 02.01.2024): 100 and
50 pages. -/
def twoDayLog : BooksQueue := ⟨[], [], [(1, 100), (2, 50)]⟩

/-- Log inserted out of date order (keys 5 then 2), with distinct keys. -/
def logSample : BooksQueue := ⟨[], [], [(5, 1), (2, 3)]⟩

/-- Two books of 3 and 4 pages for a concrete scheduling run. -/
def schedBooks : List Book :=
  [⟨1, ("a"), ("w"), 3, some 0, none⟩, ⟨2, ("b"), ("w"), 4, none, none⟩]

/-- A list of integers that is pairwise nondecreasing and pairwise distinct
is pairwise strictly increasing. -/
theorem pairwise_lt_of_le_of_ne : ∀ {l : List Int},
    l.Pairwise (· ≤ ·) → l.Pairwise (· ≠ ·) → l.Pairwise (· < ·)
  | [], _, _ => List.Pairwise.nil
  | _ :: _, hle, hne => by
    rw [List.pairwise_cons] at hle hne ⊢
    exact ⟨fun y hy => lt_of_le_of_ne (hle.1 y hy) (hne.1 y hy),
      pairwise_lt_of_le_of_ne hle.2 hne.2⟩

/-- The schedule lists the queue in its original order. -/
theorem schedule_map_fst (pace : Int) : ∀ (cursor : Int) (books : List Book),
    (schedule pace cursor books).map Prod.fst = books
  | _, [] => rfl
  | cursor, _ :: rest => by
    simp [schedule, schedule_map_fst pace _ rest]

/-- The first range the schedule emits starts at the cursor. -/
theorem schedule_head_start (pace cursor : Int) (books : List Book) :
    ∀ y ∈ (schedule pace cursor books).head?, y.2.1 = cursor := by
  cases books with
  | nil => simp [schedule]
  | cons b rest => simp [schedule]

/-- Consecutive schedule entries chain: each range starts one day after the
previous range finishes. -/
theorem schedule_chain (pace : Int) : ∀ (cursor : Int) (books : List Book),
    List.Chain' (fun x y : Book × Int × Int × Int => y.2.1 = x.2.2.1 + 1)
      (schedule pace cursor books)
  | _, [] => List.chain'_nil
  | cursor, b :: rest => by
    have ih := schedule_chain pace
      (cursor + (Int.fdiv b.pages pace + 1) + 1) rest
    have hh := schedule_head_start pace
      (cursor + (Int.fdiv b.pages pace + 1) + 1) rest
    simp only [schedule]
    exact List.chain'_cons'.mpr ⟨fun y hy => hh y hy, ih⟩

/-- With a positive pace and nonnegative page counts every projected range
is nondegenerate: it starts strictly before it finishes. -/
theorem schedule_start_lt_finish (pace : Int) (hpace : 0 < pace) :
    ∀ (cursor : Int) (books : List Book), (∀ b ∈ books, 0 ≤ b.pages) →
      ∀ e ∈ schedule pace cursor books, e.2.1 < e.2.2.1
  | _, [], _, _, he => by simp [schedule] at he
  | cursor, b :: rest, hb, e, he => by
    simp only [schedule, List.mem_cons] at he
    rcases he with rfl | he
    · have h0 : 0 ≤ Int.fdiv b.pages pace :=
        Int.fdiv_nonneg (hb b (List.mem_cons_self b rest)) (le_of_lt hpace)
      show cursor < cursor + (Int.fdiv b.pages pace + 1)
      omega
    · exact schedule_start_lt_finish pace hpace _ rest
        (fun x hx => hb x (List.mem_cons_of_mem b hx)) e he

/-! ### The claims -/

/-- Claim C1 (code bug).  The claim says `completeMaterial` succeeds when
the popped item was the only one in the queue.  On the code a singleton
queue makes `self.queue[0].start_date = ...` raise `IndexError` after the
pop and the append already ran: here the book (started day 7, completed
day 7, so the completed date is not before the start date) is moved to
`processed` with `end_date` set, the queue is emptied, and the call still
raises. -/
theorem complete_book_singleton_raises_after_mutation :
    BooksQueue.complete_book
        ⟨[⟨1, ("b"), ("a"), 100, some 7, none⟩], [], []⟩ 7 (some 7)
      = (.error (.indexError ("list index out of range")),
         ⟨[], [⟨1, ("b"), ("a"), 100, some 7, some 7⟩], []⟩) := rfl

/-- Claim C2 (code bug).  The claim says a failing mutating operation
leaves the state exactly as it was.  `complete_book` on a singleton queue
raises `IndexError` with the state already mutated (head popped and
appended to `processed`); only the log is untouched.  The empty-queue case
does fail cleanly with the state unchanged, as the claim says. -/
theorem complete_book_violates_atomicity :
    (soloState.complete_book 9 none).1
        = .error (.indexError ("list index out of range"))
    ∧ (soloState.complete_book 9 none).2 ≠ soloState
    ∧ (soloState.complete_book 9 none).2.log = soloState.log
    ∧ BooksQueue.complete_book ⟨[], [], []⟩ 9 none
        = (.error (.valueError ("Books queue is empty")), ⟨[], [], []⟩) :=
  ⟨rfl, by decide, rfl, rfl⟩

/-- Claim C3, counterexample.  With today being day 10, setting a log
entry for day 11 (strictly in the future) with 5 pages succeeds and
inserts the entry: `_set_log` has no future-date check, so the claimed
`FutureDate` failure does not happen. -/
theorem set_log_accepts_future_date :
    BooksQueue.set_log ⟨[], [], []⟩ 11 5 = (.ok (), ⟨[], [], [(11, 5)]⟩)
    ∧ (10 : Int) < 11 :=
  ⟨rfl, by decide⟩

/-- Claim C3 as amended: `setEntry(date, pages)` fails iff `pages < 0`
(`ValueError`) or `date` already has an entry (`ValueError`); there is no
future-date check, so for every `pages >= 0` and date not yet in the log —
today, past or future — it succeeds and inserts the entry. -/
theorem set_log_spec (q : BooksQueue) (d p : Int) :
    (p < 0 → q.set_log d p
        = (.error (.valueError ("Pages count must be >= 0")), q))
    ∧ (0 ≤ p → d ∈ q.log.map Prod.fst → q.set_log d p
        = (.error (.valueError
            ("The date " ++ toString d ++ " even exists in the log")), q))
    ∧ (0 ≤ p → d ∉ q.log.map Prod.fst →
        (q.set_log d p).1 = .ok () ∧ (d, p) ∈ (q.set_log d p).2.log) := by
  refine ⟨fun hp => by simp [BooksQueue.set_log, hp],
    fun hp hd => ?_, fun hp hd => ?_⟩
  · simp [BooksQueue.set_log, hd, not_lt.mpr hp]
  · constructor
    · simp [BooksQueue.set_log, hd, not_lt.mpr hp]
    · have hl : (q.set_log d p).2.log
          = List.insertionSort dateLe (q.log ++ [(d, p)]) := by
        simp [BooksQueue.set_log, hd, not_lt.mpr hp]
      rw [hl]
      exact ((List.perm_insertionSort dateLe _).mem_iff).mpr (by simp)

/-- Claim C3 witness: inserting 9 pages on day 4 into an empty log
succeeds and the entry lands in the log. -/
theorem set_log_spec_witness :
    (0 : Int) ≤ 9 ∧ (4 : Int) ∉ emptyState.log.map Prod.fst
    ∧ (emptyState.set_log 4 9).1 = .ok ()
    ∧ ((4 : Int), (9 : Int)) ∈ (emptyState.set_log 4 9).2.log := by
  have h := (set_log_spec emptyState 4 9).2.2 (by decide) (by decide)
  exact ⟨by decide, by decide, h.1, h.2⟩

/-- Claim C4, counterexample.  The scenario queue (one 150-page book
starting day 3, pace 75) is projected with `days_count = 150 // 75 + 1 = 3`
and printed range `[3, 6]` (03.01.2024 to 06.01.2024), not the claimed
`daysNeeded = ceil(150/75) = 2` with range `[3, 4]`. -/
theorem schedule_scenario_days_not_ceil :
    schedule 75 3 [sampleBook150] = [(sampleBook150, 3, 6, 3)]
    ∧ (3 : Int) ≠ 2 :=
  ⟨rfl, by decide⟩

/-- Claim C4 as amended: the scheduler computes
`daysNeeded = size // pace + 1` unconditionally, so a size that is an
exact multiple `k * pace` takes `k + 1` days (one more than the ceiling),
and the printed inclusive range is `[cursor, cursor + daysNeeded]` with
the next item starting at `cursor + daysNeeded + 1`. -/
theorem schedule_days_floor_plus_one (pace cursor k : Int) (b : Book)
    (rest : List Book) (hpace : 0 < pace) (hpages : b.pages = k * pace) :
    schedule pace cursor (b :: rest)
      = (b, cursor, cursor + (k + 1), k + 1)
        :: schedule pace (cursor + (k + 1) + 1) rest := by
  simp only [schedule]
  rw [hpages, Int.mul_fdiv_cancel k (ne_of_gt hpace)]

/-- Claim C4 witness: a 150-page book at pace 75 (an exact multiple,
`k = 2`) starting day 3 is scheduled over `2 + 1 = 3` days, range
`[3, 6]`. -/
theorem schedule_days_floor_plus_one_witness :
    (0 : Int) < 75 ∧ ((150 : Int) = 2 * 75)
    ∧ schedule 75 3 [⟨2, ("w"), ("v"), 150, none, none⟩]
        = [(⟨2, ("w"), ("v"), 150, none, none⟩, 3, 3 + (2 + 1), 2 + 1)] := by
  have h := schedule_days_floor_plus_one 75 3 2
    ⟨2, ("w"), ("v"), 150, none, none⟩ [] (by decide) (by decide)
  exact ⟨by decide, by decide, by rw [h]; rfl⟩

/-- Claim C5, counterexample.  Completing the head (which started on day
5) with the explicit earlier day 3 does not fail with any error: the call
succeeds, records `end_date = 3 < 5 = start_date`, and moves the book to
`processed`.  No `InvalidDateRange` check exists in `complete_book` or in
the `end_date` setter. -/
theorem complete_book_accepts_early_date :
    earlyDateQueue.complete_book 20 (some 3)
      = (.ok (), ⟨[⟨2, ("i"), ("a"), 80, some 4, none⟩],
                  [⟨1, ("h"), ("a"), 100, some 5, some 3⟩], []⟩)
    ∧ (3 : Int) < 5 :=
  ⟨rfl, by decide⟩

/-- Claim C5 as amended: `completeMaterial` with an explicit
`completedDate` performs no date-range validation at all — on any queue of
at least two books it succeeds for every completed date, even one strictly
earlier than the head start date, setting the popped book `end_date` to it
unchecked. -/
theorem complete_book_no_date_check (q : BooksQueue) (today cd : Int)
    (b next : Book) (rest : List Book) (hq : q.queue = b :: next :: rest) :
    q.complete_book today (some cd)
      = (.ok (), { q with
          queue := { next with start_date := some (cd + 1) } :: rest,
          processed := q.processed ++ [{ b with end_date := some cd }] }) := by
  simp [BooksQueue.complete_book, hq]

/-- Claim C5 witness: the two-book queue whose head started on day 5,
completed on the earlier day 3, succeeds. -/
theorem complete_book_no_date_check_witness :
    (3 : Int) < 5
    ∧ earlyDateQueue.complete_book 20 (some 3)
      = (.ok (), { earlyDateQueue with
          queue := [⟨2, ("i"), ("a"), 80, some 4, none⟩],
          processed := [⟨1, ("h"), ("a"), 100, some 5, some 3⟩] }) := by
  have h := complete_book_no_date_check earlyDateQueue 20 3
    ⟨1, ("h"), ("a"), 100, some 5, none⟩
    ⟨2, ("i"), ("a"), 80, none, none⟩ [] rfl
  exact ⟨by decide, by rw [h]; rfl⟩

/-- Claim C6, counterexample.  Adding the first book to an empty system
does not assign id 1: `_last_id` evaluates `self.queue[-1]` and raises
`IndexError`, leaving the state untouched. -/
theorem add_book_empty_system_raises :
    emptyState.add_book ("t") ("a") 10
      = (.error (.indexError ("list index out of range")), emptyState) := rfl

/-- Claim C6 as amended: `add_book` appends the new book at the queue
tail with id equal to the id of the LAST QUEUED book plus 1 (the processed
list plays no part), and raises `IndexError` when the queue is empty,
whatever the processed list holds. -/
theorem add_book_id_from_queue_tail (q : BooksQueue) (t a : String)
    (p : Int) :
    (q.queue = [] → q.add_book t a p
        = (.error (.indexError ("list index out of range")), q))
    ∧ (∀ last, q.queue.getLast? = some last → q.add_book t a p
        = (.ok (), { q with
            queue := q.queue ++ [⟨last.id + 1, t, a, p, none, none⟩] })) := by
  constructor
  · intro h
    simp [BooksQueue.add_book, BooksQueue.last_id, h]
  · intro last h
    simp [BooksQueue.add_book, BooksQueue.last_id, h]

/-- Claim C6 witness: with queue tail id 1 and a processed book of id 7,
the new book gets id 2 (tail id + 1), not 8 (max id + 1). -/
theorem add_book_id_from_queue_tail_witness :
    idState.queue.getLast? = some ⟨1, ("q1"), ("a"), 5, none, none⟩
    ∧ idState.add_book ("t") ("a") 10
      = (.ok (), ⟨[⟨1, ("q1"), ("a"), 5, none, none⟩,
                   ⟨2, ("t"), ("a"), 10, none, none⟩],
                  [⟨7, ("p7"), ("a"), 6, some 1, some 2⟩], []⟩) := by
  have h := (add_book_id_from_queue_tail idState ("t") ("a") 10).2
    ⟨1, ("q1"), ("a"), 5, none, none⟩ rfl
  exact ⟨rfl, by rw [h]; rfl⟩

/-- Claim C7: `avg` is the floor division of the summed page counts by the
number of logged days, 0 on an empty log instead of an error; `total` is
the sum; on the log with 100 pages on day 1 and 50 on day 2 they are 75
and 150. -/
theorem avg_total_spec :
    (∀ q : BooksQueue, q.log.length ≠ 0 →
        q.avg = Int.fdiv ((q.log.map Prod.snd).sum) (q.log.length : Int))
    ∧ emptyState.avg = 0
    ∧ twoDayLog.avg = 75
    ∧ twoDayLog.total = 150 := by
  refine ⟨fun q h => ?_, rfl, rfl, rfl⟩
  simp [BooksQueue.avg, h]

/-- Claim C7 witness: the two-day log is nonempty, so the general formula
applies to it. -/
theorem avg_total_spec_witness :
    twoDayLog.log.length ≠ 0
    ∧ twoDayLog.avg
        = Int.fdiv ((twoDayLog.log.map Prod.snd).sum)
            (twoDayLog.log.length : Int) :=
  ⟨by decide, avg_total_spec.1 twoDayLog (by decide)⟩

/-- Claim C8: for every queue (with nonnegative page counts) and positive
pace, the projected ranges come out in queue order, each range starts
strictly before it finishes, and each subsequent range starts exactly one
day after the previous one finishes — contiguous and non-overlapping. -/
theorem schedule_contiguous (pace cursor : Int) (books : List Book)
    (hpace : 0 < pace) (hpages : ∀ b ∈ books, 0 ≤ b.pages) :
    ((schedule pace cursor books).map Prod.fst = books)
    ∧ (∀ (i : Nat) (h : i + 1 < (schedule pace cursor books).length),
        ((schedule pace cursor books).get ⟨i + 1, h⟩).2.1
          = ((schedule pace cursor books).get
              ⟨i, Nat.lt_of_succ_lt h⟩).2.2.1 + 1)
    ∧ (∀ e ∈ schedule pace cursor books, e.2.1 < e.2.2.1) := by
  refine ⟨schedule_map_fst pace cursor books, ?_,
    schedule_start_lt_finish pace hpace cursor books hpages⟩
  intro i h
  exact (List.chain'_iff_get).mp (schedule_chain pace cursor books) i
    (by omega)

/-- Claim C8 witness: two books of 3 and 4 pages at pace 2, cursor 0, keep
queue order and the second range starts one day after the first ends. -/
theorem schedule_contiguous_witness :
    ((schedule 2 0 schedBooks).map Prod.fst = schedBooks)
    ∧ ((schedule 2 0 schedBooks).get ⟨1, by decide⟩).2.1
        = ((schedule 2 0 schedBooks).get ⟨0, by decide⟩).2.2.1 + 1 := by
  have h := schedule_contiguous 2 0 schedBooks (by decide) (by decide)
  exact ⟨h.1, h.2.1 0 (by decide)⟩

/-- Claim C9: when the log keys are distinct, a successful `_set_log`
leaves the log strictly ascending by date (so each consumer iterating it
sees sorted, duplicate-free entries), and the other mutating operations
never touch the log. -/
theorem set_log_sorted_invariant (q : BooksQueue) (d p : Int)
    (hnd : (q.log.map Prod.fst).Nodup)
    (hok : (q.set_log d p).1 = .ok ()) :
    (((q.set_log d p).2.log.map Prod.fst).Pairwise (· < ·))
    ∧ (∀ today cd, (q.complete_book today cd).2.log = q.log)
    ∧ (∀ t a pg, (q.add_book t a pg).2.log = q.log) := by
  refine ⟨?_, ?_, ?_⟩
  · by_cases hp : p < 0
    · simp [BooksQueue.set_log, hp] at hok
    · by_cases hd : d ∈ q.log.map Prod.fst
      · simp [BooksQueue.set_log, hp, hd] at hok
      · have hl : (q.set_log d p).2.log
            = List.insertionSort dateLe (q.log ++ [(d, p)]) := by
          simp [BooksQueue.set_log, hp, hd]
        rw [hl]
        have hsorted : List.Sorted dateLe
            (List.insertionSort dateLe (q.log ++ [(d, p)])) :=
          List.sorted_insertionSort dateLe _
        have hle : ((List.insertionSort dateLe
            (q.log ++ [(d, p)])).map Prod.fst).Pairwise (· ≤ ·) := by
          rw [List.pairwise_map]
          exact hsorted
        have hnd2 : ((q.log ++ [(d, p)]).map Prod.fst).Nodup := by
          rw [List.map_append, List.nodup_append]
          refine ⟨hnd, List.nodup_singleton d, ?_⟩
          intro x hx hx2
          simp at hx2
          subst hx2
          exact hd hx
        have hne : ((List.insertionSort dateLe
            (q.log ++ [(d, p)])).map Prod.fst).Nodup :=
          (((List.perm_insertionSort dateLe
            (q.log ++ [(d, p)])).map Prod.fst).nodup_iff).mpr hnd2
        exact pairwise_lt_of_le_of_ne hle hne
  · intro today cd
    cases hq : q.queue with
    | nil => simp [BooksQueue.complete_book, hq]
    | cons b rest =>
      cases rest with
      | nil => simp [BooksQueue.complete_book, hq]
      | cons h2 t2 => simp [BooksQueue.complete_book, hq]
  · intro t a pg
    cases hl : q.last_id with
    | error e => simp [BooksQueue.add_book, hl]
    | ok v => simp [BooksQueue.add_book, hl]

/-- Claim C9 witness: inserting day 3 into the distinct-keyed log with
days 5 and 2 succeeds and leaves the keys strictly ascending. -/
theorem set_log_sorted_invariant_witness :
    ((logSample.set_log 3 4).2.log.map Prod.fst).Pairwise (· < ·) :=
  (set_log_sorted_invariant logSample 3 4 (by decide) (by rfl)).1

